import Mathlib

/-!
Verification of the fish-tracker event engine (imports/api/events):
a shallow embedding of EventsCollection.js (validateEventData) and
EventsMethods.js (insertEvent, updateEvent, deleteEvent, completeEvent,
getEventStats, calculateNextOccurrence).

Modelling conventions:
* JavaScript Date values are epoch milliseconds (Int), with the calendar
  arithmetic of Date.setDate/Date.setMonth reproduced under UTC via the
  standard civil-from-days / days-from-civil conversion.
* A JS value that may be absent is an Option; for strings, JS truthiness
  (absent or empty string is falsy) is jsTruthy.
* The Mongo store is a list of stored documents; findOneAsync on
  a selector is List.find?, updateAsync with a single-id selector maps
  over the list, removeAsync filters it.
-/

namespace FishTracker

abbrev Timestamp := Int

/-- Milliseconds in a day. -/
def msPerDay : Int := 86400000

/-- JS truthiness of a possibly-absent string: absent, null and the empty
string are falsy. -/
def jsTruthy : Option String → Bool
  | none => false
  | some s => !(s == "")

/-- Whitespace stripped from the front of a character list. -/
def dropLeadingWs : List Char → List Char
  | [] => []
  | c :: cs => if c.isWhitespace then dropLeadingWs cs else c :: cs

/-- JS String.prototype.trim: strip leading and trailing whitespace
(structural recursion, so that the kernel can evaluate it). -/
def jsTrim (s : String) : String :=
  ⟨(dropLeadingWs (dropLeadingWs s.data).reverse).reverse⟩

/-- Days from civil date (year, month 1-12, day); day may exceed the month
length, in which case the result extends linearly — exactly the rollover
Date.setMonth exhibits (Feb 31 is 2 or 3 days into March). -/
def daysFromCivil (year month day : Int) : Int :=
  let y := if month ≤ 2 then year - 1 else year
  let era := y.fdiv 400
  let yoe := y - era * 400
  let doy := (153 * (month + (if month > 2 then -3 else 9)) + 2).fdiv 5 + day - 1
  let doe := yoe * 365 + yoe.fdiv 4 - yoe.fdiv 100 + doy
  era * 146097 + doe - 719468

/-- Civil date (year, month 1-12, day) of a day number counted from the
Unix epoch. -/
def civilFromDays (z0 : Int) : Int × Int × Int :=
  let z := z0 + 719468
  let era := z.fdiv 146097
  let doe := z - era * 146097
  let yoe := (doe - doe.fdiv 1460 + doe.fdiv 36524 - doe.fdiv 146096).fdiv 365
  let y := yoe + era * 400
  let doy := doe - (365 * yoe + yoe.fdiv 4 - yoe.fdiv 100)
  let mp := (5 * doy + 2).fdiv 153
  let d := doy - (153 * mp + 2).fdiv 5 + 1
  let m := mp + (if mp < 10 then 3 else -9)
  (if m ≤ 2 then y + 1 else y, m, d)

/-- JS nextDate.setMonth(nextDate.getMonth() + 1) under UTC: same
day-of-month in the next calendar month, rolled over when that day does
not exist, keeping the time of day. -/
def addOneMonthJs (t : Timestamp) : Timestamp :=
  let day := t.fdiv msPerDay
  let ms := t - day * msPerDay
  let c := civilFromDays day
  let y := c.1
  let m := c.2.1
  let d := c.2.2
  let ym := if m = 12 then (y + 1, (1 : Int)) else (y, m + 1)
  daysFromCivil ym.1 ym.2 d * msPerDay + ms

/-- calculateNextOccurrence from EventsMethods.js: daily adds one day,
weekly seven days, monthly one calendar month (setMonth semantics);
an unrecognised rule returns null. -/
def calculateNextOccurrence (currentDate : Timestamp) (recurrence : String) :
    Option Timestamp :=
  match recurrence with
  | "daily" => some (currentDate + msPerDay)
  | "weekly" => some (currentDate + 7 * msPerDay)
  | "monthly" => some (addOneMonthJs currentDate)
  | _ => none

/-! Validation service (validateEventData in EventsCollection.js). -/

def validTargetTypes : List String := ["fish", "aquarium"]

def validTypes : List String :=
  ["feeding", "cleaning", "water_change", "medication", "aquarium_medication",
   "observation", "maintenance", "other"]

def validPriorities : List String := ["low", "medium", "high"]

def validRecurrences : List String := ["daily", "weekly", "monthly"]

/-- Epoch milliseconds of new Date(\"2020-01-01\"). -/
def minScheduledAt : Timestamp := 1577836800000

def msgTargetType : String := "Le type de cible doit être : fish, aquarium"
def msgFishIdRequired : String :=
  "L\x27ID du poisson est obligatoire pour les événements de poisson"
def msgType : String :=
  "Le type d\x27événement doit être : feeding, cleaning, water_change, medication, aquarium_medication, observation, maintenance, other"
def msgCoherence : String :=
  "Les traitements d\x27aquarium doivent avoir targetType = \"aquarium\""
def msgTitleRequired : String := "Le titre de l\x27événement est obligatoire"
def msgTitleShort : String := "Le titre doit contenir au moins 2 caractères"
def msgTitleLong : String := "Le titre ne peut pas dépasser 100 caractères"
def msgDateRequired : String := "La date prévue est obligatoire"
def msgDateTooOld : String := "La date prévue ne peut pas être antérieure à 2020"
def msgPriority : String := "La priorité doit être : low, medium, high"
def msgRecurrence : String := "La récurrence doit être : daily, weekly, monthly"
def msgDescriptionLong : String := "La description ne peut pas dépasser 500 caractères"
def msgNotesLong : String := "Les notes ne peuvent pas dépasser 500 caractères"
def msgCompletedBeforeScheduled : String :=
  "La date de réalisation ne peut pas être antérieure à la date prévue"

/-- Candidate event payload as validateEventData receives it (either a raw
insert payload or an existing record merged with a partial update). Each
field is optional; absent and JS-null coincide here because the validator
only distinguishes them through truthiness. -/
structure EventData where
  targetType : Option String := none
  fishId : Option String := none
  type : Option String := none
  title : Option String := none
  description : Option String := none
  notes : Option String := none
  scheduledAt : Option Timestamp := none
  completedAt : Option Timestamp := none
  isCompleted : Option Bool := none
  priority : Option String := none
  recurrence : Option String := none
  nextOccurrence : Option Timestamp := none
  ownerId : Option String := none
  createdAt : Option Timestamp := none
  updatedAt : Option Timestamp := none
deriving Repr, DecidableEq

def targetTypeErrors (e : EventData) : List String :=
  if !(jsTruthy e.targetType) || !(validTargetTypes.contains (e.targetType.getD "")) then
    [msgTargetType]
  else []

def fishIdErrors (e : EventData) : List String :=
  if e.targetType = some "fish" then
    if !(jsTruthy e.fishId) then [msgFishIdRequired] else []
  else []

def typeErrors (e : EventData) : List String :=
  if !(jsTruthy e.type) || !(validTypes.contains (e.type.getD "")) then
    [msgType]
  else []

def coherenceErrors (e : EventData) : List String :=
  if e.type = some "aquarium_medication" ∧ e.targetType ≠ some "aquarium" then
    [msgCoherence]
  else []

def titleErrors (e : EventData) : List String :=
  if !(jsTruthy e.title) then [msgTitleRequired]
  else if (jsTrim (e.title.getD "")).length < 2 then [msgTitleShort]
  else if (jsTrim (e.title.getD "")).length > 100 then [msgTitleLong]
  else []

def scheduledAtErrors (e : EventData) : List String :=
  match e.scheduledAt with
  | none => [msgDateRequired]
  | some t => if t < minScheduledAt then [msgDateTooOld] else []

def priorityErrors (e : EventData) : List String :=
  if jsTruthy e.priority && !(validPriorities.contains (e.priority.getD "")) then
    [msgPriority]
  else []

def recurrenceErrors (e : EventData) : List String :=
  if jsTruthy e.recurrence && !(validRecurrences.contains (e.recurrence.getD "")) then
    [msgRecurrence]
  else []

def descriptionErrors (e : EventData) : List String :=
  if jsTruthy e.description && (e.description.getD "").length > 500 then
    [msgDescriptionLong]
  else []

def notesErrors (e : EventData) : List String :=
  if jsTruthy e.notes && (e.notes.getD "").length > 500 then
    [msgNotesLong]
  else []

def completedAtErrors (e : EventData) : List String :=
  match e.completedAt, e.scheduledAt with
  | some c, some s => if c < s then [msgCompletedBeforeScheduled] else []
  | _, _ => []

/-- Result shape of validateEventData. -/
structure ValidationResult where
  isValid : Bool
  errors : List String
deriving Repr, DecidableEq

/-- validateEventData from EventsCollection.js: pushes, in source order, one
message per violated rule and reports validity as emptiness of that list. -/
def validateEventData (e : EventData) : ValidationResult :=
  let errs :=
    targetTypeErrors e ++ fishIdErrors e ++ typeErrors e ++ coherenceErrors e ++
    titleErrors e ++ scheduledAtErrors e ++ priorityErrors e ++ recurrenceErrors e ++
    descriptionErrors e ++ notesErrors e ++ completedAtErrors e
  ⟨errs.isEmpty, errs⟩

/-! Mutation service (EventsMethods.js). -/

/-- Stored event document, with the schema fields of the events
collection. Fields that the code can leave null are Options. -/
structure StoredEvent where
  id : String
  targetType : Option String
  fishId : Option String
  type : Option String
  title : String
  description : String
  notes : String
  scheduledAt : Option Timestamp
  isCompleted : Bool
  completedAt : Option Timestamp
  priority : String
  recurrence : Option String
  nextOccurrence : Option Timestamp
  ownerId : String
  createdAt : Timestamp
  updatedAt : Timestamp
deriving Repr, DecidableEq

/-- Partial update payload for updateEvent. The outer Option marks whether
the field occurs in the payload at all (a present field is written by the
$set). For recurrence, completedAt and nextOccurrence a present inner none
models a JS null value, which the code stores as-is; for the remaining
fields a present null behaves like an absent field on every accepted path,
so only the non-null value is modelled. -/
structure UpdateData where
  targetType : Option String := none
  fishId : Option String := none
  type : Option String := none
  title : Option String := none
  description : Option String := none
  notes : Option String := none
  scheduledAt : Option Timestamp := none
  isCompleted : Option Bool := none
  completedAt : Option (Option Timestamp) := none
  priority : Option String := none
  recurrence : Option (Option String) := none
  nextOccurrence : Option (Option Timestamp) := none
  ownerId : Option String := none
  createdAt : Option Timestamp := none
deriving Repr, DecidableEq

/-- Typed errors thrown by the methods (Meteor.Error reasons, plus the
check() Match failure for ill-typed payloads). -/
inductive MErr where
  | notAuthorized
  | matchFailed
  | fishNotFound
  | validationError (msgs : List String)
  | eventNotFound
  | fishRequired
  | alreadyCompleted
deriving Repr, DecidableEq

/-- Fish registry interface: the list of (fishId, ownerId) pairs that
exist, standing for FishCollection.findOneAsync by id and owner. -/
abbrev FishRegistry := List (String × String)

def fishOwned (fishes : FishRegistry) (fishId uid : String) : Bool :=
  fishes.any (fun p => p.1 == fishId && p.2 == uid)

/-- Mongo find of the single event matching a selector with _id and
ownerId, as every method performs it. -/
def findEvent (store : List StoredEvent) (eventId uid : String) :
    Option StoredEvent :=
  store.find? (fun ev => ev.id == eventId && ev.ownerId == uid)

/-- insertEvent from EventsMethods.js. userId is the authenticated caller
(none when not logged in), now the clock reading, newId the id Mongo
assigns. Returns the method result and the resulting store. -/
def insertEvent (fishes : FishRegistry) (userId : Option String)
    (e : EventData) (now : Timestamp) (newId : String)
    (store : List StoredEvent) : Except MErr String × List StoredEvent :=
  match userId with
  | none => (.error .notAuthorized, store)
  | some uid =>
    if e.type.isNone || e.title.isNone || e.scheduledAt.isNone || e.targetType.isNone then
      (.error .matchFailed, store)
    else if e.targetType = some "fish" && e.fishId.isNone then
      (.error .matchFailed, store)
    else if e.targetType = some "fish" && !(fishOwned fishes (e.fishId.getD "") uid) then
      (.error .fishNotFound, store)
    else
      let v := validateEventData e
      if !v.isValid then (.error (.validationError v.errors), store)
      else
        let doc : StoredEvent :=
          { id := newId
            targetType := e.targetType
            fishId := e.fishId
            type := e.type
            title := jsTrim (e.title.getD "")
            description := if jsTruthy e.description then jsTrim (e.description.getD "") else ""
            notes := if jsTruthy e.notes then jsTrim (e.notes.getD "") else ""
            scheduledAt := e.scheduledAt
            isCompleted := false
            completedAt := none
            priority := if jsTruthy e.priority then e.priority.getD "" else "medium"
            recurrence := if jsTruthy e.recurrence then e.recurrence else none
            nextOccurrence :=
              if jsTruthy e.recurrence then
                match e.scheduledAt with
                | some s => calculateNextOccurrence s (e.recurrence.getD "")
                | none => none
              else none
            ownerId := uid
            createdAt := now
            updatedAt := now }
        (.ok newId, store ++ [doc])

/-- Merge of the existing record with the partial payload, exactly the
dataToValidate spread in updateEvent. -/
def mergeForValidation (ev : StoredEvent) (u : UpdateData) : EventData :=
  { targetType := match u.targetType with | some s => some s | none => ev.targetType
    fishId := match u.fishId with | some s => some s | none => ev.fishId
    type := match u.type with | some s => some s | none => ev.type
    title := some ((u.title).getD ev.title)
    description := some ((u.description).getD ev.description)
    notes := some ((u.notes).getD ev.notes)
    scheduledAt := match u.scheduledAt with | some t => some t | none => ev.scheduledAt
    completedAt := match u.completedAt with | some c => c | none => ev.completedAt
    isCompleted := some ((u.isCompleted).getD ev.isCompleted)
    priority := some ((u.priority).getD ev.priority)
    recurrence := match u.recurrence with | some r => r | none => ev.recurrence
    nextOccurrence := match u.nextOccurrence with | some v => v | none => ev.nextOccurrence
    ownerId := some ((u.ownerId).getD ev.ownerId)
    createdAt := some ((u.createdAt).getD ev.createdAt)
    updatedAt := some ev.updatedAt }

/-- Truthiness of the recurrence payload field: present with a non-null,
non-empty value. -/
def recurrencePayloadTruthy : Option (Option String) → Bool
  | some (some r) => !(r == "")
  | _ => false

/-- Application of the $set update built by updateEvent to the stored
document: every present payload field is written (title, description and
notes trimmed when truthy), updatedAt is stamped, and nextOccurrence is
recomputed from the merged scheduledAt and recurrence precisely when the
payload carries a truthy recurrence or a scheduledAt. -/
def applyUpdate (ev : StoredEvent) (u : UpdateData) (now : Timestamp) :
    StoredEvent :=
  let recompute := recurrencePayloadTruthy u.recurrence || u.scheduledAt.isSome
  let newScheduledAt : Option Timestamp :=
    match u.scheduledAt with | some s => some s | none => ev.scheduledAt
  let newRecurrence : Option String :=
    match u.recurrence with | some r => r | none => ev.recurrence
  let recomputed : Option Timestamp :=
    if jsTruthy newRecurrence then
      match newScheduledAt with
      | some s => calculateNextOccurrence s (newRecurrence.getD "")
      | none => none
    else none
  { id := ev.id
    targetType := match u.targetType with | some s => some s | none => ev.targetType
    fishId := match u.fishId with | some s => some s | none => ev.fishId
    type := match u.type with | some s => some s | none => ev.type
    title := match u.title with | some t => (if t == "" then t else jsTrim t) | none => ev.title
    description := match u.description with | some d => (if d == "" then d else jsTrim d) | none => ev.description
    notes := match u.notes with | some n => (if n == "" then n else jsTrim n) | none => ev.notes
    scheduledAt := newScheduledAt
    isCompleted := (u.isCompleted).getD ev.isCompleted
    completedAt := match u.completedAt with | some c => c | none => ev.completedAt
    priority := (u.priority).getD ev.priority
    recurrence := newRecurrence
    nextOccurrence :=
      if recompute then recomputed
      else match u.nextOccurrence with | some v => v | none => ev.nextOccurrence
    ownerId := (u.ownerId).getD ev.ownerId
    createdAt := (u.createdAt).getD ev.createdAt
    updatedAt := now }

/-- updateEvent from EventsMethods.js. -/
def updateEvent (fishes : FishRegistry) (userId : Option String)
    (eventId : String) (u : UpdateData) (now : Timestamp)
    (store : List StoredEvent) : Except MErr Bool × List StoredEvent :=
  match userId with
  | none => (.error .notAuthorized, store)
  | some uid =>
    match findEvent store eventId uid with
    | none => (.error .eventNotFound, store)
    | some ev =>
      if jsTruthy u.fishId && !(u.fishId == ev.fishId) &&
          !(fishOwned fishes (u.fishId.getD "") uid) then
        (.error .fishNotFound, store)
      else if u.targetType = some "fish" && !(jsTruthy u.fishId) && !(jsTruthy ev.fishId) then
        (.error .fishRequired, store)
      else
        let v := validateEventData (mergeForValidation ev u)
        if !v.isValid then (.error (.validationError v.errors), store)
        else
          (.ok true,
           store.map (fun e => if e.id == eventId then applyUpdate e u now else e))

/-- deleteEvent from EventsMethods.js. -/
def deleteEvent (userId : Option String) (eventId : String)
    (store : List StoredEvent) : Except MErr Bool × List StoredEvent :=
  match userId with
  | none => (.error .notAuthorized, store)
  | some uid =>
    match findEvent store eventId uid with
    | none => (.error .eventNotFound, store)
    | some _ => (.ok true, store.filter (fun ev => !(ev.id == eventId)))

/-- Primitive store writes performed by completeEvent, in order. -/
inductive WriteOp where
  | insertDoc (doc : StoredEvent)
  | completeSet (eventId : String) (completedAt : Timestamp)
      (trimmedNotes : String) (updatedAt : Timestamp)
deriving Repr, DecidableEq

/-- Effect of one write on the store. -/
def applyWriteOp (store : List StoredEvent) : WriteOp → List StoredEvent
  | .insertDoc doc => store ++ [doc]
  | .completeSet eventId c n u =>
      store.map (fun ev =>
        if ev.id == eventId then
          { ev with isCompleted := true, completedAt := some c,
                    notes := n, updatedAt := u }
        else ev)

/-- completeEvent from EventsMethods.js as the ordered list of store writes
it performs: for a recurring event with a pending nextOccurrence, first the
insert of the cloned next occurrence, then the $set completing the original
record. -/
def completeEventOps (userId : Option String) (eventId : String)
    (notes0 : String) (now : Timestamp) (newId : String)
    (store : List StoredEvent) : Except MErr (List WriteOp) :=
  match userId with
  | none => .error .notAuthorized
  | some uid =>
    match findEvent store eventId uid with
    | none => .error .eventNotFound
    | some ev =>
      if ev.isCompleted then .error .alreadyCompleted
      else
        let spawn : List WriteOp :=
          if jsTruthy ev.recurrence && ev.nextOccurrence.isSome then
            [.insertDoc
              { ev with
                  id := newId
                  scheduledAt := ev.nextOccurrence
                  nextOccurrence :=
                    match ev.nextOccurrence with
                    | some t => calculateNextOccurrence t (ev.recurrence.getD "")
                    | none => none
                  isCompleted := false
                  completedAt := none
                  notes := ""
                  createdAt := now
                  updatedAt := now }]
          else []
        .ok (spawn ++ [.completeSet eventId now (jsTrim notes0) now])

/-- completeEvent: the writes applied in order to the store. -/
def completeEvent (userId : Option String) (eventId : String)
    (notes0 : String) (now : Timestamp) (newId : String)
    (store : List StoredEvent) : Except MErr Bool × List StoredEvent :=
  match completeEventOps userId eventId notes0 now newId store with
  | .error err => (.error err, store)
  | .ok ops => (.ok true, ops.foldl applyWriteOp store)

/-! Aggregation engine (getEventStats in EventsMethods.js). -/

/-- JS Math.round: nearest integer, halves toward positive infinity. -/
def mathRound (q : Rat) : Int := ⌊q + 1 / 2⌋

/-- setHours(0,0,0,0) on now, under UTC. -/
def startOfDayUtc (now : Timestamp) : Timestamp := now - now.emod msPerDay

/-- setHours(23,59,59,999) on now, under UTC. -/
def endOfDayUtc (now : Timestamp) : Timestamp := startOfDayUtc now + (msPerDay - 1)

structure TodayStats where
  total : Nat
  completed : Nat
  remaining : Int
deriving Repr, DecidableEq

structure StatsSnapshot where
  total : Nat
  completed : Nat
  pending : Nat
  overdue : Nat
  today : TodayStats
  completionRate : Int
deriving Repr, DecidableEq

/-- Mongo comparison scheduledAt lt now: a null scheduledAt never matches a
Date range or lt query. -/
def schedBefore (ev : StoredEvent) (t : Timestamp) : Bool :=
  match ev.scheduledAt with
  | some s => decide (s < t)
  | none => false

def schedWithin (ev : StoredEvent) (lo hi : Timestamp) : Bool :=
  match ev.scheduledAt with
  | some s => decide (lo ≤ s) && decide (s ≤ hi)
  | none => false

/-- getEventStats from EventsMethods.js: the six counts on the caller's
events and the derived today.remaining and completionRate. -/
def getEventStats (userId : Option String) (now : Timestamp)
    (store : List StoredEvent) : Except MErr StatsSnapshot :=
  match userId with
  | none => .error .notAuthorized
  | some uid =>
    let sod := startOfDayUtc now
    let eod := endOfDayUtc now
    let total := (store.filter (fun ev => ev.ownerId == uid)).length
    let completed := (store.filter (fun ev => ev.ownerId == uid && ev.isCompleted)).length
    let pending := (store.filter (fun ev => ev.ownerId == uid && !ev.isCompleted)).length
    let overdue := (store.filter (fun ev =>
        ev.ownerId == uid && !ev.isCompleted && schedBefore ev now)).length
    let todayTotal := (store.filter (fun ev =>
        ev.ownerId == uid && schedWithin ev sod eod)).length
    let todayCompleted := (store.filter (fun ev =>
        ev.ownerId == uid && ev.isCompleted && schedWithin ev sod eod)).length
    .ok
      { total := total
        completed := completed
        pending := pending
        overdue := overdue
        today :=
          { total := todayTotal
            completed := todayCompleted
            remaining := (todayTotal : Int) - (todayCompleted : Int) }
        completionRate :=
          if total > 0 then mathRound ((completed : Rat) / (total : Rat) * 100) else 0 }

/-! Concrete fixtures for the example-level statements. Timestamps:
1706688000000 is 2024-01-31T08:00:00Z, 1709366400000 is 2024-03-02T08:00:00Z,
1712044800000 is 2024-04-02T08:00:00Z; 1577836800000 is 2020-01-01. -/

/-- Monthly aquarium-cleaning event of owner alice anchored at
2024-01-31T08:00Z, next occurrence 2024-03-02T08:00Z. -/
def docA : StoredEvent :=
  { id := "A", targetType := some "aquarium", fishId := none, type := some "cleaning"
    title := "Nettoyage aquarium", description := "", notes := ""
    scheduledAt := some 1706688000000, isCompleted := false, completedAt := none
    priority := "medium", recurrence := some "monthly"
    nextOccurrence := some 1709366400000, ownerId := "alice"
    createdAt := 1706000000000, updatedAt := 1706000000000 }

/-- Insert payload producing docA. -/
def payloadA : EventData :=
  { targetType := some "aquarium", type := some "cleaning"
    title := some "Nettoyage aquarium", scheduledAt := some 1706688000000
    recurrence := some "monthly" }

/-- Occurrence spawned by completing docA at 1706700000000. -/
def docB : StoredEvent :=
  { docA with
      id := "B"
      scheduledAt := some 1709366400000
      nextOccurrence := some 1712044800000
      createdAt := 1706700000000
      updatedAt := 1706700000000 }

/-- Plain non-recurring event of owner alice. -/
def docOwned : StoredEvent :=
  { id := "e1", targetType := some "aquarium", fishId := none, type := some "cleaning"
    title := "Nettoyage", description := "", notes := ""
    scheduledAt := some 1706688000000, isCompleted := false, completedAt := none
    priority := "medium", recurrence := none, nextOccurrence := none
    ownerId := "alice", createdAt := 0, updatedAt := 0 }

/-- Daily-recurring event of owner alice with a pending next occurrence. -/
def docRec : StoredEvent :=
  { id := "e4", targetType := some "aquarium", fishId := none, type := some "cleaning"
    title := "Quotidien", description := "", notes := ""
    scheduledAt := some 1706688000000, isCompleted := false, completedAt := none
    priority := "medium", recurrence := some "daily"
    nextOccurrence := some 1706774400000, ownerId := "alice"
    createdAt := 0, updatedAt := 0 }

/-- Already-completed event of owner alice. -/
def docDone : StoredEvent :=
  { id := "e3", targetType := some "aquarium", fishId := none, type := some "cleaning"
    title := "Nettoyage", description := "", notes := ""
    scheduledAt := some 1706688000000, isCompleted := true
    completedAt := some 1706700000000, priority := "medium"
    recurrence := some "daily", nextOccurrence := some 1706774400000
    ownerId := "alice", createdAt := 0, updatedAt := 0 }

/-- Aquarium-targeted insert payload that nevertheless carries a fishId. -/
def payloadC8 : EventData :=
  { targetType := some "aquarium", fishId := some "f1", type := some "cleaning"
    title := some "Nettoyage", scheduledAt := some 1706688000000 }

/-- Payload with type aquarium_medication but targetType fish, on an
existing owned fish. -/
def payloadC6 : EventData :=
  { targetType := some "fish", fishId := some "f1", type := some "aquarium_medication"
    title := some "Traitement", scheduledAt := some 1706688000000 }

/-- Payload violating both the coherence rule and the title-length rule. -/
def payloadC6b : EventData :=
  { targetType := some "fish", fishId := some "f1", type := some "aquarium_medication"
    title := some "X", scheduledAt := some 1706688000000 }

/-- Registry in which alice owns fish f1. -/
def fishesAlice : FishRegistry := [("f1", "alice")]

/-- Update payload carrying only a new scheduledAt. -/
def uSched : UpdateData := { scheduledAt := some 1707000000000 }

/-- Forward direction of the fishId/targetType link: a stored fish-targeted
event carries a truthy fishId. -/
def fishLinkInv (ev : StoredEvent) : Prop :=
  ev.targetType = some "fish" → jsTruthy ev.fishId = true

/-- Snapshot of getEventStats for owner alice over [docA] at
now = 1706700000000. -/
def statsA : StatsSnapshot :=
  { total := 1, completed := 0, pending := 1, overdue := 1
    today := { total := 1, completed := 0, remaining := 1 }
    completionRate := 0 }

deriving instance DecidableEq for Except

/-! Theorems. -/

/-- Claim C7: calculateNextOccurrence is pure and deterministic; it adds
exactly one day for daily and exactly seven days for weekly, and for
monthly it moves to the same day-of-month in the next calendar month with
the date library rollover when that day does not exist. For the anchor
2024-01-31T08:00Z with monthly recurrence the computed next occurrence is
2024-03-02T08:00Z (one calendar month later under the rollover), inserting
such an event stores that value, and completing it spawns an event
scheduled at exactly that value. -/
theorem calculateNextOccurrence_spec :
    (∀ t, calculateNextOccurrence t "daily" = some (t + msPerDay)) ∧
    (∀ t, calculateNextOccurrence t "weekly" = some (t + 7 * msPerDay)) ∧
    (∀ t, calculateNextOccurrence t "monthly" = some (addOneMonthJs t)) ∧
    calculateNextOccurrence 1706688000000 "monthly" = some 1709366400000 ∧
    insertEvent [] (some "alice") payloadA 1706000000000 "A" [] =
      (Except.ok "A", [docA]) ∧
    completeEventOps (some "alice") "A" "" 1706700000000 "B" [docA] =
      Except.ok [WriteOp.insertDoc docB,
                 WriteOp.completeSet "A" 1706700000000 "" 1706700000000] :=
  ⟨fun _ => rfl, fun _ => rfl, fun _ => rfl, by decide, by decide, by decide⟩

/-- Claim C8 counterexample: inserting an aquarium-targeted payload that
carries a fishId succeeds and persists a document with targetType aquarium
and the fishId still present, so the biconditional of the claim fails. -/
theorem insert_aquarium_keeps_fishId :
    (insertEvent [] (some "alice") payloadC8 1706000000000 "E8" []).1 =
      Except.ok "E8" ∧
    ((insertEvent [] (some "alice") payloadC8 1706000000000 "E8" []).2.map
      (fun d => (d.targetType, d.fishId))) = [(some "aquarium", some "f1")] := by
  decide

/-- Claim C2: an update payload that carries an ownerId field is written
verbatim by the $set, so the stored event changes owner — the call by
alice on her own event succeeds and leaves the document owned by mallory. -/
theorem updateEvent_overwrites_ownerId :
    (updateEvent [] (some "alice") "e1"
        { ownerId := some "mallory" } 5 [docOwned]).1 = Except.ok true ∧
    ((updateEvent [] (some "alice") "e1"
        { ownerId := some "mallory" } 5 [docOwned]).2.map StoredEvent.ownerId) =
      ["mallory"] := by
  decide

/-- Claim C4 counterexample: an update whose payload clears recurrence to
null and carries no scheduledAt is accepted, stores recurrence = null, yet
leaves the stale nextOccurrence in place instead of nulling it, because
the recompute guard tests the payload fields for truthiness. -/
theorem updateEvent_clear_recurrence_keeps_stale_nextOccurrence :
    (updateEvent [] (some "alice") "e4"
        { recurrence := some none } 9 [docRec]).1 = Except.ok true ∧
    ((updateEvent [] (some "alice") "e4"
        { recurrence := some none } 9 [docRec]).2.map
      (fun d => (d.recurrence, d.nextOccurrence))) =
      [(none, some 1706774400000)] := by
  decide

/-- Claim C3: when no event with the given id and the caller as owner
exists, update, delete and complete each fail with the NotFound error and
return the store unchanged; and complete on an event that is already
completed fails with AlreadyCompleted, also leaving the store unchanged
(in particular no occurrence is spawned). -/
theorem scoped_miss_and_completed_guard
    (fishes : FishRegistry) (uid eventId notes0 newId : String)
    (u : UpdateData) (now : Timestamp) (store : List StoredEvent) :
    (findEvent store eventId uid = none →
      updateEvent fishes (some uid) eventId u now store =
        (Except.error MErr.eventNotFound, store) ∧
      deleteEvent (some uid) eventId store =
        (Except.error MErr.eventNotFound, store) ∧
      completeEvent (some uid) eventId notes0 now newId store =
        (Except.error MErr.eventNotFound, store)) ∧
    (∀ ev, findEvent store eventId uid = some ev → ev.isCompleted = true →
      completeEvent (some uid) eventId notes0 now newId store =
        (Except.error MErr.alreadyCompleted, store)) := by
  constructor
  · intro h
    refine ⟨?_, ?_, ?_⟩
    · simp [updateEvent, h]
    · simp [deleteEvent, h]
    · simp [completeEvent, completeEventOps, h]
  · intro ev h hc
    simp [completeEvent, completeEventOps, h, hc]

/-- Witness for C3: concrete miss (id zz owned by nobody) and a concrete
already-completed event e3. -/
theorem scoped_miss_and_completed_guard_witness :
    (updateEvent [] (some "alice") "zz" {} 0 [docDone] =
       (Except.error MErr.eventNotFound, [docDone]) ∧
     deleteEvent (some "alice") "zz" [docDone] =
       (Except.error MErr.eventNotFound, [docDone]) ∧
     completeEvent (some "alice") "zz" "" 0 "N" [docDone] =
       (Except.error MErr.eventNotFound, [docDone])) ∧
    completeEvent (some "alice") "e3" "" 0 "N" [docDone] =
      (Except.error MErr.alreadyCompleted, [docDone]) :=
  ⟨(scoped_miss_and_completed_guard [] "alice" "zz" "" "N" {} 0 [docDone]).1
      (by decide),
   (scoped_miss_and_completed_guard [] "alice" "e3" "" "N" {} 0 [docDone]).2
      docDone (by decide) (by decide)⟩

/-- Claim C1: completing a not-yet-completed owned event whose recurrence
and nextOccurrence are set performs exactly two writes, in order: first
the insert of one clone of the event with the new id, scheduledAt equal to
the old nextOccurrence, nextOccurrence freshly computed from it, not
completed, no completedAt, empty notes and fresh timestamps; then the
update of the original to completed with completedAt = now and the trimmed
notes. -/
theorem completeEvent_spawns_before_completing
    (uid eventId notes0 newId : String) (now : Timestamp)
    (store : List StoredEvent) (ev : StoredEvent) (r : String) (t : Timestamp)
    (hfind : findEvent store eventId uid = some ev)
    (hnc : ev.isCompleted = false)
    (hr : ev.recurrence = some r) (hr2 : ¬(r = ""))
    (hn : ev.nextOccurrence = some t) :
    completeEventOps (some uid) eventId notes0 now newId store =
      Except.ok
        [WriteOp.insertDoc
           { ev with
               id := newId
               scheduledAt := some t
               nextOccurrence := calculateNextOccurrence t r
               isCompleted := false
               completedAt := none
               notes := ""
               createdAt := now
               updatedAt := now },
         WriteOp.completeSet eventId now (jsTrim notes0) now] ∧
    completeEvent (some uid) eventId notes0 now newId store =
      (Except.ok true,
        applyWriteOp
          (applyWriteOp store
            (WriteOp.insertDoc
              { ev with
                  id := newId
                  scheduledAt := some t
                  nextOccurrence := calculateNextOccurrence t r
                  isCompleted := false
                  completedAt := none
                  notes := ""
                  createdAt := now
                  updatedAt := now }))
          (WriteOp.completeSet eventId now (jsTrim notes0) now)) := by
  have hops : completeEventOps (some uid) eventId notes0 now newId store =
      Except.ok
        [WriteOp.insertDoc
           { ev with
               id := newId
               scheduledAt := some t
               nextOccurrence := calculateNextOccurrence t r
               isCompleted := false
               completedAt := none
               notes := ""
               createdAt := now
               updatedAt := now },
         WriteOp.completeSet eventId now (jsTrim notes0) now] := by
    simp [completeEventOps, hfind, hnc, jsTruthy, hr, hr2, hn]
  refine ⟨hops, ?_⟩
  unfold completeEvent
  rw [hops]
  rfl

/-- Witness for C1: completing the concrete daily event e4 with notes
needing a trim. -/
theorem completeEvent_spawns_before_completing_witness :
    completeEventOps (some "alice") "e4" " ok " 99 "N" [docRec] =
      Except.ok
        [WriteOp.insertDoc
           { docRec with
               id := "N"
               scheduledAt := some 1706774400000
               nextOccurrence := calculateNextOccurrence 1706774400000 "daily"
               isCompleted := false
               completedAt := none
               notes := ""
               createdAt := 99
               updatedAt := 99 },
         WriteOp.completeSet "e4" 99 (jsTrim " ok ") 99] :=
  (completeEvent_spawns_before_completing "alice" "e4" " ok " "N" 99 [docRec]
    docRec "daily" 1706774400000 (by decide) rfl rfl (by decide) rfl).1


/-- Claim C4 (amended): a successful update rewrites the stored event by
the $set application; nextOccurrence is recomputed from the merged
scheduledAt and recurrence exactly when the payload carries a truthy
recurrence or a scheduledAt (null when the merged recurrence is cleared),
and when the payload carries neither — including a payload that clears
recurrence to null — nextOccurrence is left unchanged, stale. -/
theorem update_recompute_policy
    (fishes : FishRegistry) (uid eventId : String) (u : UpdateData)
    (now : Timestamp) (store : List StoredEvent) (ev : StoredEvent)
    (hfind : findEvent store eventId uid = some ev)
    (hok : (updateEvent fishes (some uid) eventId u now store).1 = Except.ok true) :
    (updateEvent fishes (some uid) eventId u now store).2 =
      store.map (fun e => if e.id == eventId then applyUpdate e u now else e) ∧
    ((recurrencePayloadTruthy u.recurrence || u.scheduledAt.isSome) = false →
      u.nextOccurrence = none →
      (applyUpdate ev u now).nextOccurrence = ev.nextOccurrence) ∧
    ((recurrencePayloadTruthy u.recurrence || u.scheduledAt.isSome) = true →
      (applyUpdate ev u now).nextOccurrence =
        (if jsTruthy (match u.recurrence with | some r => r | none => ev.recurrence) then
           match (match u.scheduledAt with | some s => some s | none => ev.scheduledAt) with
           | some s =>
               calculateNextOccurrence s
                 ((match u.recurrence with | some r => r | none => ev.recurrence).getD "")
           | none => none
         else none)) := by
  refine ⟨?_, ?_, ?_⟩
  · unfold updateEvent at hok ⊢
    simp only [hfind] at hok ⊢
    by_cases h1 : (jsTruthy u.fishId && !(u.fishId == ev.fishId) &&
        !(fishOwned fishes (u.fishId.getD "") uid)) = true
    · rw [if_pos h1] at hok
      simp at hok
    · rw [if_neg h1] at hok ⊢
      by_cases h2 : (decide (u.targetType = some "fish") && !(jsTruthy u.fishId) &&
          !(jsTruthy ev.fishId)) = true
      · rw [if_pos h2] at hok
        simp at hok
      · rw [if_neg h2] at hok ⊢
        by_cases h3 : (!(validateEventData (mergeForValidation ev u)).isValid) = true
        · simp only [if_pos h3] at hok
          simp at hok
        · simp only [if_neg h3]
  · intro hcond hnone
    simp [applyUpdate, hcond, hnone]
  · intro hcond
    simp [applyUpdate, hcond]

/-- Witness for the amended C4 at a payload carrying only a scheduledAt. -/
theorem update_recompute_policy_witness :
    (updateEvent [] (some "alice") "e4" uSched 9 [docRec]).2 =
      [docRec].map (fun e => if e.id == "e4" then applyUpdate e uSched 9 else e) ∧
    ((recurrencePayloadTruthy uSched.recurrence || uSched.scheduledAt.isSome) = false →
      uSched.nextOccurrence = none →
      (applyUpdate docRec uSched 9).nextOccurrence = docRec.nextOccurrence) ∧
    ((recurrencePayloadTruthy uSched.recurrence || uSched.scheduledAt.isSome) = true →
      (applyUpdate docRec uSched 9).nextOccurrence =
        (if jsTruthy (match uSched.recurrence with | some r => r | none => docRec.recurrence) then
           match (match uSched.scheduledAt with | some s => some s | none => docRec.scheduledAt) with
           | some s =>
               calculateNextOccurrence s
                 ((match uSched.recurrence with | some r => r | none => docRec.recurrence).getD "")
           | none => none
         else none)) :=
  update_recompute_policy [] "alice" "e4" uSched 9 [docRec] docRec (by decide) (by decide)

/-- Validation success makes every per-rule error list empty. -/
theorem valid_parts {e : EventData} (h : (validateEventData e).isValid = true) :
    targetTypeErrors e = [] ∧ fishIdErrors e = [] ∧ typeErrors e = [] ∧
    coherenceErrors e = [] ∧ titleErrors e = [] ∧ scheduledAtErrors e = [] ∧
    priorityErrors e = [] ∧ recurrenceErrors e = [] ∧ descriptionErrors e = [] ∧
    notesErrors e = [] ∧ completedAtErrors e = [] := by
  simp only [validateEventData, List.isEmpty_iff, List.append_eq_nil] at h
  tauto

/-- A payload that validates and targets a fish carries a truthy fishId. -/
theorem valid_fish_truthy {e : EventData}
    (h : (validateEventData e).isValid = true)
    (ht : e.targetType = some "fish") : jsTruthy e.fishId = true := by
  by_contra hf
  have h2 := (valid_parts h).2.1
  simp [fishIdErrors, ht, hf] at h2

/-- Claim C8 (amended): the forward half of the link is an invariant — in
a store whose events all satisfy fishLinkInv and whose ids are unique,
every store produced by insert, update, delete or complete still satisfies
fishLinkInv everywhere. The reverse half fails: see the counterexample,
an aquarium-targeted event may keep a fishId. -/
theorem fishLink_forward_preserved
    (fishes : FishRegistry) (uid : String) (store : List StoredEvent)
    (hstore : ∀ x ∈ store, fishLinkInv x)
    (hnodup : (store.map StoredEvent.id).Nodup) :
    (∀ e now newId, ∀ x ∈ (insertEvent fishes (some uid) e now newId store).2,
      fishLinkInv x) ∧
    (∀ eventId u now, ∀ x ∈ (updateEvent fishes (some uid) eventId u now store).2,
      fishLinkInv x) ∧
    (∀ eventId, ∀ x ∈ (deleteEvent (some uid) eventId store).2, fishLinkInv x) ∧
    (∀ eventId notes0 now newId,
      ∀ x ∈ (completeEvent (some uid) eventId notes0 now newId store).2,
      fishLinkInv x) := by
  refine ⟨?_, ?_, ?_, ?_⟩
  · intro e now newId x hx
    simp only [insertEvent] at hx
    split at hx
    · exact hstore x hx
    · split at hx
      · exact hstore x hx
      · split at hx
        · exact hstore x hx
        · split at hx
          · exact hstore x hx
          · rename_i hv
            simp only [List.mem_append, List.mem_singleton] at hx
            rcases hx with hx | rfl
            · exact hstore x hx
            · intro hft
              have hvv : (validateEventData e).isValid = true := by
                simpa using hv
              exact valid_fish_truthy hvv hft
  · intro eventId u now x hx
    simp only [updateEvent] at hx
    cases hfind : findEvent store eventId uid with
    | none => simp only [hfind] at hx; exact hstore x hx
    | some ev =>
      simp only [hfind] at hx
      split at hx
      · exact hstore x hx
      · split at hx
        · exact hstore x hx
        · split at hx
          · exact hstore x hx
          · rename_i hv
            simp only [List.mem_map] at hx
            rcases hx with ⟨y, hy, rfl⟩
            by_cases hid : (y.id == eventId) = true
            · rw [if_pos hid]
              have hyev : y = ev := by
                have hmem := List.mem_of_find?_eq_some hfind
                have hprop := List.find?_some hfind
                have hiy : y.id = ev.id := by
                  have hy1 : y.id = eventId := by simpa using hid
                  have hy2 : ev.id = eventId := by
                    simp only [Bool.and_eq_true, beq_iff_eq] at hprop
                    exact hprop.1
                  rw [hy1, hy2]
                exact List.inj_on_of_nodup_map hnodup hy hmem hiy
              subst hyev
              have hvv : (validateEventData (mergeForValidation y u)).isValid = true := by
                simpa using hv
              intro hft
              exact valid_fish_truthy hvv hft
            · rw [if_neg hid]
              exact hstore y hy
  · intro eventId x hx
    simp only [deleteEvent] at hx
    cases hfind : findEvent store eventId uid with
    | none => simp only [hfind] at hx; exact hstore x hx
    | some ev =>
      simp only [hfind] at hx
      exact hstore x (List.mem_of_mem_filter hx)
  · intro eventId notes0 now newId x hx
    simp only [completeEvent, completeEventOps] at hx
    cases hfind : findEvent store eventId uid with
    | none => simp only [hfind] at hx; exact hstore x hx
    | some ev =>
      simp only [hfind] at hx
      have hmem := List.mem_of_find?_eq_some hfind
      split at hx
      · exact hstore x hx
      · rename_i ops hops
        split at hops
        · cases hops
        · injection hops with hops
          subst hops
          by_cases hg : (jsTruthy ev.recurrence && ev.nextOccurrence.isSome) = true
          · rw [if_pos hg] at hx
            simp only [List.cons_append, List.nil_append, List.foldl_cons,
              List.foldl_nil, applyWriteOp, List.mem_map, List.mem_append,
              List.mem_singleton] at hx
            rcases hx with ⟨y, hy, rfl⟩
            by_cases hid : (y.id == eventId) = true
            · rw [if_pos hid]
              rcases hy with hy | rfl
              · intro hft; exact hstore y hy hft
              · intro hft; exact hstore ev hmem hft
            · rw [if_neg hid]
              rcases hy with hy | rfl
              · exact hstore y hy
              · intro hft; exact hstore ev hmem hft
          · rw [if_neg hg] at hx
            simp only [List.nil_append, List.foldl_cons, List.foldl_nil,
              applyWriteOp, List.mem_map] at hx
            rcases hx with ⟨y, hy, rfl⟩
            by_cases hid : (y.id == eventId) = true
            · rw [if_pos hid]
              intro hft
              exact hstore y hy hft
            · rw [if_neg hid]
              exact hstore y hy

/-- Witness for the amended C8 on the one-event store of docOwned. -/
theorem fishLink_forward_preserved_witness :
    (∀ e now newId, ∀ x ∈ (insertEvent [] (some "alice") e now newId [docOwned]).2,
      fishLinkInv x) ∧
    (∀ eventId u now, ∀ x ∈ (updateEvent [] (some "alice") eventId u now [docOwned]).2,
      fishLinkInv x) ∧
    (∀ eventId, ∀ x ∈ (deleteEvent (some "alice") eventId [docOwned]).2, fishLinkInv x) ∧
    (∀ eventId notes0 now newId,
      ∀ x ∈ (completeEvent (some "alice") eventId notes0 now newId [docOwned]).2,
      fishLinkInv x) :=
  fishLink_forward_preserved [] "alice" [docOwned]
    (by
      intro x hx
      simp only [List.mem_singleton] at hx
      subst hx
      intro hft
      exact absurd hft (by decide))
    (by decide)

/-- Claim C9: whatever extra values the payload carries, a successful
insert appends exactly one document which is not completed, has no
completedAt, defaults priority to medium and recurrence to null when
absent, computes nextOccurrence from scheduledAt exactly when recurrence is
set (null otherwise), trims title, description and notes, is owned by the
caller, and carries createdAt = updatedAt = now. -/
theorem insertEvent_normalizes
    (fishes : FishRegistry) (uid : String) (e : EventData) (now : Timestamp)
    (newId rid : String) (store newStore : List StoredEvent)
    (hok : insertEvent fishes (some uid) e now newId store = (Except.ok rid, newStore)) :
    rid = newId ∧
    ∃ doc, newStore = store ++ [doc] ∧
      doc.isCompleted = false ∧
      doc.completedAt = none ∧
      (e.priority = none → doc.priority = "medium") ∧
      (e.recurrence = none → doc.recurrence = none) ∧
      (jsTruthy e.recurrence = true →
        doc.recurrence = e.recurrence ∧
        ∃ s, e.scheduledAt = some s ∧
          doc.nextOccurrence = calculateNextOccurrence s (e.recurrence.getD "")) ∧
      (jsTruthy e.recurrence = false → doc.nextOccurrence = none) ∧
      doc.title = jsTrim (e.title.getD "") ∧
      (jsTruthy e.description = true → doc.description = jsTrim (e.description.getD "")) ∧
      (jsTruthy e.notes = true → doc.notes = jsTrim (e.notes.getD "")) ∧
      doc.scheduledAt = e.scheduledAt ∧
      doc.ownerId = uid ∧ doc.createdAt = now ∧ doc.updatedAt = now := by
  simp only [insertEvent] at hok
  split at hok
  · simp at hok
  · split at hok
    · simp at hok
    · split at hok
      · simp at hok
      · split at hok
        · simp at hok
        · rename_i hchk hfish1 hfish2 hv
          have h1 := congrArg Prod.fst hok
          have h2 := congrArg Prod.snd hok
          simp only [Prod.fst, Prod.snd] at h1 h2
          have hrid : rid = newId := by
            injection h1 with h1x
            exact h1x.symm
          have hsched : ∃ s, e.scheduledAt = some s := by
            rcases hs : e.scheduledAt with _ | s
            · exfalso
              apply hchk
              simp [hs]
            · exact ⟨s, rfl⟩
          refine ⟨hrid, _, h2.symm, rfl, rfl, ?_, ?_, ?_, ?_, rfl, ?_, ?_,
            rfl, rfl, rfl, rfl⟩
          · intro hp; simp [jsTruthy, hp]
          · intro hr; simp [jsTruthy, hr]
          · intro hr
            rcases hsched with ⟨s, hs⟩
            refine ⟨by simp [hr], s, hs, by simp [hr, hs]⟩
          · intro hr; simp [hr]
          · intro hd
            rw [if_pos hd]
          · intro hn
            rw [if_pos hn]

/-- Witness for C9 at the concrete monthly insert producing docA. -/
theorem insertEvent_normalizes_witness :
    "A" = "A" ∧
    ∃ doc, [docA] = ([] : List StoredEvent) ++ [doc] ∧
      doc.isCompleted = false ∧
      doc.completedAt = none ∧
      (payloadA.priority = none → doc.priority = "medium") ∧
      (payloadA.recurrence = none → doc.recurrence = none) ∧
      (jsTruthy payloadA.recurrence = true →
        doc.recurrence = payloadA.recurrence ∧
        ∃ s, payloadA.scheduledAt = some s ∧
          doc.nextOccurrence = calculateNextOccurrence s (payloadA.recurrence.getD "")) ∧
      (jsTruthy payloadA.recurrence = false → doc.nextOccurrence = none) ∧
      doc.title = jsTrim (payloadA.title.getD "") ∧
      (jsTruthy payloadA.description = true →
        doc.description = jsTrim (payloadA.description.getD "")) ∧
      (jsTruthy payloadA.notes = true → doc.notes = jsTrim (payloadA.notes.getD "")) ∧
      doc.scheduledAt = payloadA.scheduledAt ∧
      doc.ownerId = "alice" ∧ doc.createdAt = 1706000000000 ∧
      doc.updatedAt = 1706000000000 :=
  insertEvent_normalizes [] "alice" payloadA 1706000000000 "A" "A" [] [docA] (by decide)


/-- Partition of a filtered count by a second boolean. -/
theorem length_filter_and_split (l : List StoredEvent) (p q : StoredEvent → Bool) :
    (l.filter (fun x => p x && q x)).length + (l.filter (fun x => p x && !q x)).length
      = (l.filter p).length := by
  induction l with
  | nil => rfl
  | cons a l ih =>
    by_cases hp : p a = true
    · by_cases hq : q a = true <;> simp [List.filter, hp, hq] <;> omega
    · simp [List.filter, hp, ih]

/-- Filtering by a stronger predicate yields at most as many elements. -/
theorem length_filter_mono_imp (l : List StoredEvent) (p q : StoredEvent → Bool)
    (h : ∀ x, p x = true → q x = true) :
    (l.filter p).length ≤ (l.filter q).length := by
  induction l with
  | nil => exact le_rfl
  | cons a l ih =>
    by_cases hp : p a = true
    · have hqa := h a hp
      simp only [List.filter, hp, hqa, List.length_cons]
      omega
    · by_cases hqa : q a = true <;>
        simp only [List.filter, hp, hqa, List.length_cons] <;> omega

/-- Claim C5: getEventStats returns the snapshot whose fields count the
owner\x27s events: total; the partition by isCompleted; overdue as not
completed with scheduledAt before now; the same counts restricted to the
day window of now; and completionRate = round(100 times completed over
total), zero when there are no events; repeated calls on the same store
and now return the same snapshot. -/
theorem getEventStats_matches_counts
    (uid : String) (now : Timestamp) (store : List StoredEvent) :
    getEventStats (some uid) now store = Except.ok
      { total := store.countP (fun ev => ev.ownerId == uid)
        completed := store.countP (fun ev => ev.ownerId == uid && ev.isCompleted)
        pending := store.countP (fun ev => ev.ownerId == uid && !ev.isCompleted)
        overdue := store.countP (fun ev =>
          ev.ownerId == uid && !ev.isCompleted && schedBefore ev now)
        today :=
          { total := store.countP (fun ev => ev.ownerId == uid &&
              schedWithin ev (startOfDayUtc now) (endOfDayUtc now))
            completed := store.countP (fun ev => ev.ownerId == uid && ev.isCompleted &&
              schedWithin ev (startOfDayUtc now) (endOfDayUtc now))
            remaining := (store.countP (fun ev => ev.ownerId == uid &&
              schedWithin ev (startOfDayUtc now) (endOfDayUtc now)) : Int) -
              (store.countP (fun ev => ev.ownerId == uid && ev.isCompleted &&
                schedWithin ev (startOfDayUtc now) (endOfDayUtc now)) : Int) }
        completionRate :=
          if 0 < store.countP (fun ev => ev.ownerId == uid) then
            mathRound (100 *
              (store.countP (fun ev => ev.ownerId == uid && ev.isCompleted) : Rat) /
              (store.countP (fun ev => ev.ownerId == uid) : Rat))
          else 0 } ∧
    (∀ s1 s2, getEventStats (some uid) now store = s1 →
      getEventStats (some uid) now store = s2 → s1 = s2) := by
  constructor
  · have hr : ∀ c t : Nat, ((c : Rat) / (t : Rat) * 100) = (100 * (c : Rat) / (t : Rat)) := by
      intro c t
      ring
    simp only [getEventStats, List.countP_eq_length_filter, hr]
  · intro s1 s2 h1 h2
    rw [← h1, ← h2]



/-- Claim C10: every snapshot the stats computation returns is internally
consistent: completed plus pending equals total, today.completed is at
most today.total with remaining their difference, and completionRate lies
between 0 and 100. -/
theorem stats_internally_consistent
    (uid : String) (now : Timestamp) (store : List StoredEvent) (s : StatsSnapshot)
    (h : getEventStats (some uid) now store = Except.ok s) :
    s.completed + s.pending = s.total ∧
    s.today.completed ≤ s.today.total ∧
    s.today.remaining = (s.today.total : Int) - (s.today.completed : Int) ∧
    0 ≤ s.completionRate ∧ s.completionRate ≤ 100 := by
  simp only [getEventStats] at h
  injection h with h
  subst h
  refine ⟨?_, ?_, rfl, ?_, ?_⟩
  · exact length_filter_and_split store _ _
  · refine length_filter_mono_imp store _ _ ?_
    intro x hx
    simp only [Bool.and_eq_true] at hx ⊢
    exact ⟨hx.1.1, hx.2⟩
  · by_cases ht : 0 < (store.filter (fun ev => ev.ownerId == uid)).length
    · rw [if_pos ht]
      unfold mathRound
      rw [Int.le_floor]
      have hq : (0 : Rat) ≤
          ((store.filter (fun ev => ev.ownerId == uid && ev.isCompleted)).length : Rat) /
          ((store.filter (fun ev => ev.ownerId == uid)).length : Rat) * 100 := by
        positivity
      push_cast
      linarith
    · rw [if_neg ht]
  · by_cases ht : 0 < (store.filter (fun ev => ev.ownerId == uid)).length
    · rw [if_pos ht]
      have hct : (store.filter (fun ev => ev.ownerId == uid && ev.isCompleted)).length ≤
          (store.filter (fun ev => ev.ownerId == uid)).length := by
        refine length_filter_mono_imp store _ _ ?_
        intro x hx
        simp only [Bool.and_eq_true] at hx
        exact hx.1
      have htr : (0 : Rat) < ((store.filter (fun ev => ev.ownerId == uid)).length : Rat) := by
        exact_mod_cast ht
      have hfrac : ((store.filter (fun ev => ev.ownerId == uid && ev.isCompleted)).length : Rat) /
          ((store.filter (fun ev => ev.ownerId == uid)).length : Rat) ≤ 1 := by
        rw [div_le_one htr]
        exact_mod_cast hct
      unfold mathRound
      rw [Int.floor_le_iff]
      have hq : ((store.filter (fun ev => ev.ownerId == uid && ev.isCompleted)).length : Rat) /
          ((store.filter (fun ev => ev.ownerId == uid)).length : Rat) * 100 ≤ 100 := by
        nlinarith
      push_cast
      linarith
    · rw [if_neg ht]
      norm_num



/-- Witness for C10 on the one-event store of docA. -/
theorem stats_internally_consistent_witness :
    statsA.completed + statsA.pending = statsA.total ∧
    statsA.today.completed ≤ statsA.today.total ∧
    statsA.today.remaining = (statsA.today.total : Int) - (statsA.today.completed : Int) ∧
    0 ≤ statsA.completionRate ∧ statsA.completionRate ≤ 100 :=
  stats_internally_consistent "alice" 1706700000000 [docA] statsA (by
    unfold getEventStats
    norm_num [startOfDayUtc, endOfDayUtc, schedBefore, schedWithin, docA, statsA,
      mathRound, List.filter, msPerDay])


theorem ite_singleton_eq_nil {c : Prop} [Decidable c] {m : String} :
    ((if c then [m] else []) = []) ↔ ¬c := by
  split <;> simp_all

theorem targetTypeErrors_nil (e : EventData) :
    targetTypeErrors e = [] ↔
      (jsTruthy e.targetType = true ∧
       validTargetTypes.contains (e.targetType.getD "") = true) := by
  simp [targetTypeErrors, ite_singleton_eq_nil]

theorem fishIdErrors_nil (e : EventData) :
    fishIdErrors e = [] ↔
      (e.targetType = some "fish" → jsTruthy e.fishId = true) := by
  unfold fishIdErrors
  split
  · rename_i hf
    simp [ite_singleton_eq_nil, hf]
  · rename_i hf
    simp [hf]

theorem typeErrors_nil (e : EventData) :
    typeErrors e = [] ↔
      (jsTruthy e.type = true ∧ validTypes.contains (e.type.getD "") = true) := by
  simp [typeErrors, ite_singleton_eq_nil]

theorem coherenceErrors_nil (e : EventData) :
    coherenceErrors e = [] ↔
      (e.type = some "aquarium_medication" → e.targetType = some "aquarium") := by
  simp [coherenceErrors, ite_singleton_eq_nil]

theorem titleErrors_nil (e : EventData) :
    titleErrors e = [] ↔
      (jsTruthy e.title = true ∧ 2 ≤ (jsTrim (e.title.getD "")).length ∧
       (jsTrim (e.title.getD "")).length ≤ 100) := by
  unfold titleErrors
  cases h : jsTruthy e.title with
  | false => simp [h]
  | true =>
    rw [if_neg (by decide : ¬(((!true : Bool)) = true))]
    split_ifs with h2 h3 <;> simp_all

theorem scheduledAtErrors_nil (e : EventData) :
    scheduledAtErrors e = [] ↔
      (∃ s, e.scheduledAt = some s ∧ minScheduledAt ≤ s) := by
  unfold scheduledAtErrors
  cases hs : e.scheduledAt with
  | none => simp
  | some t =>
    simp [ite_singleton_eq_nil]

theorem priorityErrors_nil (e : EventData) :
    priorityErrors e = [] ↔
      (jsTruthy e.priority = true →
        validPriorities.contains (e.priority.getD "") = true) := by
  simp [priorityErrors, ite_singleton_eq_nil]

theorem recurrenceErrors_nil (e : EventData) :
    recurrenceErrors e = [] ↔
      (jsTruthy e.recurrence = true →
        validRecurrences.contains (e.recurrence.getD "") = true) := by
  simp [recurrenceErrors, ite_singleton_eq_nil]

theorem descriptionErrors_nil (e : EventData) :
    descriptionErrors e = [] ↔
      (jsTruthy e.description = true → (e.description.getD "").length ≤ 500) := by
  simp [descriptionErrors, ite_singleton_eq_nil]

theorem notesErrors_nil (e : EventData) :
    notesErrors e = [] ↔
      (jsTruthy e.notes = true → (e.notes.getD "").length ≤ 500) := by
  simp [notesErrors, ite_singleton_eq_nil]

theorem completedAtErrors_nil (e : EventData) :
    completedAtErrors e = [] ↔
      (∀ c s, e.completedAt = some c → e.scheduledAt = some s → s ≤ c) := by
  unfold completedAtErrors
  cases hc : e.completedAt with
  | none => simp
  | some c =>
    cases hs : e.scheduledAt with
    | none => simp
    | some s =>
      simp [ite_singleton_eq_nil]



theorem not_mem_targetTypeErrors {m : String} (h : ¬(m = msgTargetType))
    (e : EventData) : m ∉ targetTypeErrors e := by
  unfold targetTypeErrors
  split_ifs <;> simp_all

theorem not_mem_fishIdErrors {m : String} (h : ¬(m = msgFishIdRequired))
    (e : EventData) : m ∉ fishIdErrors e := by
  unfold fishIdErrors
  split_ifs <;> simp_all

theorem not_mem_typeErrors {m : String} (h : ¬(m = msgType))
    (e : EventData) : m ∉ typeErrors e := by
  unfold typeErrors
  split_ifs <;> simp_all

theorem not_mem_coherenceErrors {m : String} (h : ¬(m = msgCoherence))
    (e : EventData) : m ∉ coherenceErrors e := by
  unfold coherenceErrors
  split_ifs <;> simp_all

theorem not_mem_titleErrors {m : String} (h1 : ¬(m = msgTitleRequired))
    (h2 : ¬(m = msgTitleShort)) (h3 : ¬(m = msgTitleLong))
    (e : EventData) : m ∉ titleErrors e := by
  unfold titleErrors
  split_ifs <;> simp_all

theorem not_mem_scheduledAtErrors {m : String} (h1 : ¬(m = msgDateRequired))
    (h2 : ¬(m = msgDateTooOld)) (e : EventData) : m ∉ scheduledAtErrors e := by
  unfold scheduledAtErrors
  cases e.scheduledAt with
  | none => simp_all
  | some t =>
    show m ∉ (if t < minScheduledAt then [msgDateTooOld] else [])
    split_ifs <;> simp_all

theorem not_mem_priorityErrors {m : String} (h : ¬(m = msgPriority))
    (e : EventData) : m ∉ priorityErrors e := by
  unfold priorityErrors
  split_ifs <;> simp_all

theorem not_mem_recurrenceErrors {m : String} (h : ¬(m = msgRecurrence))
    (e : EventData) : m ∉ recurrenceErrors e := by
  unfold recurrenceErrors
  split_ifs <;> simp_all

theorem not_mem_descriptionErrors {m : String} (h : ¬(m = msgDescriptionLong))
    (e : EventData) : m ∉ descriptionErrors e := by
  unfold descriptionErrors
  split_ifs <;> simp_all

theorem not_mem_notesErrors {m : String} (h : ¬(m = msgNotesLong))
    (e : EventData) : m ∉ notesErrors e := by
  unfold notesErrors
  split_ifs <;> simp_all

theorem not_mem_completedAtErrors {m : String} (h : ¬(m = msgCompletedBeforeScheduled))
    (e : EventData) : m ∉ completedAtErrors e := by
  unfold completedAtErrors
  cases e.completedAt with
  | none => simp_all
  | some c =>
    cases e.scheduledAt with
    | none => simp_all
    | some s =>
      show m ∉ (if c < s then [msgCompletedBeforeScheduled] else [])
      split_ifs <;> simp_all

theorem mem_errors_split (e : EventData) (m : String) :
    m ∈ (validateEventData e).errors ↔
      (m ∈ targetTypeErrors e ∨ m ∈ fishIdErrors e ∨ m ∈ typeErrors e ∨
       m ∈ coherenceErrors e ∨ m ∈ titleErrors e ∨ m ∈ scheduledAtErrors e ∨
       m ∈ priorityErrors e ∨ m ∈ recurrenceErrors e ∨ m ∈ descriptionErrors e ∨
       m ∈ notesErrors e ∨ m ∈ completedAtErrors e) := by
  unfold validateEventData
  simp only [List.mem_append]
  tauto



/-- Claim C6: validation succeeds exactly when every rule holds; the
message of a violated rule is in the error list whatever the other rules
did (shown here for the coherence rule and the title-length rule, and by
the concrete double-violation payload whose list carries both messages in
rule order); and inserting an owned-fish payload whose type is
aquarium_medication fails with exactly the coherence message, persisting
nothing. -/
theorem validateEventData_collects_all (e : EventData) :
    ((validateEventData e).isValid = true ↔
      ((jsTruthy e.targetType = true ∧
        validTargetTypes.contains (e.targetType.getD "") = true) ∧
       (e.targetType = some "fish" → jsTruthy e.fishId = true) ∧
       (jsTruthy e.type = true ∧ validTypes.contains (e.type.getD "") = true) ∧
       (e.type = some "aquarium_medication" → e.targetType = some "aquarium") ∧
       (jsTruthy e.title = true ∧ 2 ≤ (jsTrim (e.title.getD "")).length ∧
        (jsTrim (e.title.getD "")).length ≤ 100) ∧
       (∃ s, e.scheduledAt = some s ∧ minScheduledAt ≤ s) ∧
       (jsTruthy e.priority = true →
         validPriorities.contains (e.priority.getD "") = true) ∧
       (jsTruthy e.recurrence = true →
         validRecurrences.contains (e.recurrence.getD "") = true) ∧
       (jsTruthy e.description = true → (e.description.getD "").length ≤ 500) ∧
       (jsTruthy e.notes = true → (e.notes.getD "").length ≤ 500) ∧
       (∀ c s, e.completedAt = some c → e.scheduledAt = some s → s ≤ c))) ∧
    (msgCoherence ∈ (validateEventData e).errors ↔
      (e.type = some "aquarium_medication" ∧ e.targetType ≠ some "aquarium")) ∧
    (msgTitleShort ∈ (validateEventData e).errors ↔
      (jsTruthy e.title = true ∧ (jsTrim (e.title.getD "")).length < 2)) ∧
    validateEventData payloadC6b =
      { isValid := false, errors := [msgCoherence, msgTitleShort] } ∧
    insertEvent fishesAlice (some "alice") payloadC6 1706000000000 "X" [] =
      (Except.error (MErr.validationError [msgCoherence]), []) := by
  refine ⟨?_, ?_, ?_, by decide, by decide⟩
  · unfold validateEventData
    simp only [List.isEmpty_iff, List.append_eq_nil]
    rw [targetTypeErrors_nil, fishIdErrors_nil, typeErrors_nil, coherenceErrors_nil,
        titleErrors_nil, scheduledAtErrors_nil, priorityErrors_nil, recurrenceErrors_nil,
        descriptionErrors_nil, notesErrors_nil, completedAtErrors_nil]
    simp only [and_assoc]
  · rw [mem_errors_split]
    constructor
    · rintro (h | h | h | h | h | h | h | h | h | h | h)
      · exact absurd h (not_mem_targetTypeErrors (by decide) e)
      · exact absurd h (not_mem_fishIdErrors (by decide) e)
      · exact absurd h (not_mem_typeErrors (by decide) e)
      · unfold coherenceErrors at h
        split_ifs at h with hc
        · exact hc
        · simp at h
      · exact absurd h (not_mem_titleErrors (by decide) (by decide) (by decide) e)
      · exact absurd h (not_mem_scheduledAtErrors (by decide) (by decide) e)
      · exact absurd h (not_mem_priorityErrors (by decide) e)
      · exact absurd h (not_mem_recurrenceErrors (by decide) e)
      · exact absurd h (not_mem_descriptionErrors (by decide) e)
      · exact absurd h (not_mem_notesErrors (by decide) e)
      · exact absurd h (not_mem_completedAtErrors (by decide) e)
    · intro hc
      refine Or.inr (Or.inr (Or.inr (Or.inl ?_)))
      unfold coherenceErrors
      rw [if_pos hc]
      simp
  · rw [mem_errors_split]
    constructor
    · rintro (h | h | h | h | h | h | h | h | h | h | h)
      · exact absurd h (not_mem_targetTypeErrors (by decide) e)
      · exact absurd h (not_mem_fishIdErrors (by decide) e)
      · exact absurd h (not_mem_typeErrors (by decide) e)
      · exact absurd h (not_mem_coherenceErrors (by decide) e)
      · unfold titleErrors at h
        split_ifs at h with h1 h2 h3
        · simp only [List.mem_singleton] at h
          exact absurd h (by decide)
        · refine ⟨by simpa using h1, h2⟩
        · simp only [List.mem_singleton] at h
          exact absurd h (by decide)
        · simp at h
      · exact absurd h (not_mem_scheduledAtErrors (by decide) (by decide) e)
      · exact absurd h (not_mem_priorityErrors (by decide) e)
      · exact absurd h (not_mem_recurrenceErrors (by decide) e)
      · exact absurd h (not_mem_descriptionErrors (by decide) e)
      · exact absurd h (not_mem_notesErrors (by decide) e)
      · exact absurd h (not_mem_completedAtErrors (by decide) e)
    · intro hc
      refine Or.inr (Or.inr (Or.inr (Or.inr (Or.inl ?_))))
      unfold titleErrors
      rw [if_neg (by simp [hc.1]), if_pos hc.2]
      simp



end FishTracker
